import Mathlib

/-!
Verification of the FreshService-Toolkit core against its specification.

The Python source is shallowly embedded: dictionaries become association
lists over a JSON-like value type, exceptions become `Except`/`Option`,
wall-clock times become rationals, and every outbound HTTP call is made
explicit by passing the transport's answer in as a parameter and recording
attempted sends in a log.
-/

/-- A JSON-like value, standing in for the Python dicts/lists/scalars that
flow through the toolkit. -/
inductive JVal where
  | null : JVal
  | bool (b : Bool) : JVal
  | num (n : Int) : JVal
  | str (s : String) : JVal
  | list (items : List JVal) : JVal
  | obj (fields : List (String × JVal)) : JVal

/-- Python truthiness of a value (`if value:`). -/
def JVal.truthy : JVal → Bool
  | .null => false
  | .bool b => b
  | .num n => n != 0
  | .str s => !s.isEmpty
  | .list items => !items.isEmpty
  | .obj fields => !fields.isEmpty

/-- `dict.get(key)`: the stored value, or `none` when the key is absent. -/
def lookupKey (fields : List (String × JVal)) (key : String) : Option JVal :=
  (fields.find? (fun kv => kv.1 == key)).map (·.2)

/-- `key in dict`. -/
def hasKey (fields : List (String × JVal)) (key : String) : Bool :=
  (lookupKey fields key).isSome

mutual

/-- Rendering of a value into an error message (`str(...)` in the source;
rendered structurally here, message text fidelity is approximate). -/
def JVal.render : JVal → String
  | .null => "None"
  | .bool b => if b then "True" else "False"
  | .num n => toString n
  | .str s => s
  | .list items => "[" ++ String.intercalate ", " (JVal.renderList items) ++ "]"
  | .obj fields =>
      "\x7b" ++
        String.intercalate ", " (JVal.renderPairs fields) ++
      "\x7d"

/-- Renders each element of a list of values. -/
def JVal.renderList : List JVal → List String
  | [] => []
  | v :: rest => v.render :: JVal.renderList rest

/-- Renders each key/value pair of an object. -/
def JVal.renderPairs : List (String × JVal) → List String
  | [] => []
  | (k, v) :: rest => (k ++ ": " ++ v.render) :: JVal.renderPairs rest

end

/-- Python `needle in haystack` on strings (substring containment). -/
def containsSub (needle hay : String) : Bool :=
  decide (needle.toList <:+: hay.toList)

mutual

/-- Python `==` between two JSON-like values (structural equality). -/
def JVal.beq : JVal → JVal → Bool
  | .null, .null => true
  | .bool a, .bool b => a == b
  | .num a, .num b => a == b
  | .str a, .str b => a == b
  | .list a, .list b => JVal.beqList a b
  | .obj a, .obj b => JVal.beqPairs a b
  | _, _ => false

/-- Elementwise equality of value lists. -/
def JVal.beqList : List JVal → List JVal → Bool
  | [], [] => true
  | a :: as, b :: bs => JVal.beq a b && JVal.beqList as bs
  | _, _ => false

/-- Elementwise equality of key/value pair lists. -/
def JVal.beqPairs : List (String × JVal) → List (String × JVal) → Bool
  | [], [] => true
  | (k, a) :: as, (l, b) :: bs => k == l && JVal.beq a b && JVal.beqPairs as bs
  | _, _ => false

end

/-- Python `==` between two `dict.get` results (`None == None` is `True`). -/
def beqOpt : Option JVal → Option JVal → Bool
  | none, none => true
  | some a, some b => JVal.beq a b
  | _, _ => false

namespace FreshServiceAPI

/-- `RATE_LIMIT = 50` (requests per window). -/
def RATE_LIMIT : Nat := 50

/-- `RATE_LIMIT_WINDOW = 60` seconds. -/
def RATE_LIMIT_WINDOW : ℚ := 60

/-- Endpoints that are never given a workspace prefix
(`NON_WORKSPACE_ENDPOINTS`). -/
def NON_WORKSPACE_ENDPOINTS : List String :=
  ["requesters", "agents", "departments", "groups", "roles",
   "locations", "products", "vendors", "assets", "problems",
   "releases", "changes", "solutions", "users"]

/-- `_check_rate_limit`: prune timestamps older than the trailing window,
then, if the remaining count reaches the cap, compute the positive sleep
needed for the oldest timestamp to leave the window.  Returns the seconds
slept and the pruned timestamp list (the new `self.request_timestamps`). -/
def check_rate_limit (now : ℚ) (request_timestamps : List ℚ) : ℚ × List ℚ :=
  let window_start := now - RATE_LIMIT_WINDOW
  let pruned := request_timestamps.filter (fun ts => window_start < ts)
  if pruned.length ≥ RATE_LIMIT then
    let oldest_request := (pruned.min?).getD 0
    let wait_time := RATE_LIMIT_WINDOW - (now - oldest_request)
    (if 0 < wait_time then wait_time else 0, pruned)
  else
    (0, pruned)

/-- An HTTP response as seen by `_make_request`: status, reason phrase,
raw text, the result of `response.json()` (`none` when parsing fails), and
the `Retry-After` header. -/
structure HttpResponse where
  status : Nat
  reason : String
  text : String
  json : Option JVal
  retryAfterHeader : Option Int

/-- An exception raised by the transport (`requests.request` or JSON
handling), possibly carrying an attached HTTP response (as
`RequestException.response` does). -/
structure TransportError where
  msg : String
  response : Option HttpResponse

/-- What `_make_request` produces: a returned JSON value, the bare `True`
returned for expected 204s, or a raised exception with its message. -/
inductive ApiOutcome where
  | ok (v : JVal) : ApiOutcome
  | okBool : ApiOutcome
  | err (msg : String) : ApiOutcome

/-- Result of one `_make_request` call: its outcome, the new
`request_timestamps` list, the seconds slept in the rate limiter, and
whether a request actually reached the network transport. -/
structure ReqResult where
  outcome : ApiOutcome
  request_timestamps : List ℚ
  waited : ℚ
  sentRequest : Bool

/-- The synthetic value returned when dry-run intercepts a mutating call:
`{"dry_run": True, "success": True, "message": "This is a dry run"}`. -/
def dryRunDict : JVal :=
  .obj [("dry_run", .bool true), ("success", .bool true),
        ("message", .str "This is a dry run")]

/-- The helpful 404 message produced for audit-log endpoints. -/
def auditLogsMessage : String :=
  "404 Not Found: The audit_logs endpoint may not be available in your Freshservice plan or requires different access rights. Using alternative methods for user activity tracking."

/-- The `workspaces/{id}/` prefixing applied to the endpoint when a
workspace id is supplied. -/
def workspaceEndpoint (endpoint : String) (workspace_id : Option Int) : String :=
  match workspace_id with
  | none => endpoint
  | some wid =>
      let should_add_workspace :=
        !(NON_WORKSPACE_ENDPOINTS.any (fun e => e.isPrefixOf endpoint))
      if should_add_workspace && !containsSub "workspace" endpoint then
        s!"workspaces/{wid}/{endpoint}"
      else endpoint

/-- `_make_request`.  `now` is the clock at the rate-limit check and
`sendTime` the clock at the `request_timestamps.append(time.time())` line;
`transport` is the network's answer for this request (consulted only if a
request is actually sent). -/
def make_request (dry_run : Bool) (baseUrl : String)
    (method endpoint : String) (params : List (String × String))
    (workspace_id : Option Int) (expect_no_content _diagnostic : Bool)
    (now sendTime : ℚ) (request_timestamps : List ℚ)
    (transport : Except TransportError HttpResponse) : ReqResult :=
  let rl := check_rate_limit now request_timestamps
  let waited := rl.1
  let pruned := rl.2
  let wsEndpoint := workspaceEndpoint endpoint workspace_id
  let url := s!"{baseUrl}/v2/{wsEndpoint}"
  -- Skip actual API call in dry run mode for modifying requests
  if dry_run && method != "GET" then
    { outcome := .ok dryRunDict, request_timestamps := pruned,
      waited := waited, sentRequest := false }
  else
    -- Track this request, then perform it
    let stamps := pruned ++ [sendTime]
    let paramSuffix :=
      if params.isEmpty then ""
      else " (params: " ++
        String.intercalate ", " (params.map (fun kv => kv.1 ++ "=" ++ kv.2)) ++ ")"
    match transport with
    | .error e =>
        -- outer `except` block
        let outcome :=
          match e.response with
          | some r =>
              if r.status == 429 then
                let retry_after := (r.retryAfterHeader).getD 60
                let m := s!"Rate limit exceeded, retry after {retry_after} seconds."
                if _diagnostic then
                  .ok (.obj [("success", .bool false), ("error", .str m),
                             ("status_code", .num 429),
                             ("retry_after", .num retry_after)])
                else .err m
              else if _diagnostic then
                .ok (.obj [("success", .bool false),
                           ("error", .str ("API request error: " ++ e.msg)),
                           ("exception_type", .str "RequestException")])
              else .err e.msg
          | none =>
              if _diagnostic then
                .ok (.obj [("success", .bool false),
                           ("error", .str ("API request error: " ++ e.msg)),
                           ("exception_type", .str "Exception")])
              else .err e.msg
        { outcome := outcome, request_timestamps := stamps,
          waited := waited, sentRequest := true }
    | .ok r =>
        let outcome :=
          if expect_no_content && r.status == 204 then
            .okBool
          else if r.status ≥ 400 then
            let base := s!"{r.status} {r.reason} for url: {url}"
            if r.status == 404 && containsSub "audit_logs" endpoint then
              -- 404 on an audit-log endpoint: soft failure
              if _diagnostic then
                .ok (.obj [("success", .bool false),
                           ("error", .str auditLogsMessage),
                           ("status_code", .num 404),
                           ("response", .obj [("audit_logs", .list [])])])
              else
                -- raised here, re-raised unchanged by the outer except
                .err auditLogsMessage
            else
              let (error_details, msg1) :=
                match r.json with
                | some details =>
                    let withErrors :=
                      match lookupKey (match details with
                        | .obj kvs => kvs
                        | _ => []) "errors" with
                      | some ev =>
                          if ev.truthy then
                            base ++ " - Details: " ++ ev.render
                          else base
                      | none => base
                    (details, withErrors)
                | none =>
                    (JVal.null,
                     if r.text.isEmpty then base
                     else base ++ " - Response: " ++ (r.text.take 200))
              let msg := msg1 ++ paramSuffix
              if _diagnostic then
                .ok (.obj [("success", .bool false), ("error", .str msg),
                           ("status_code", .num r.status),
                           ("response", error_details)])
              else .err msg
          else
            -- parse the response
            if r.text.isEmpty then .ok (.obj [])
            else
              match r.json with
              | some j => .ok j
              | none => .ok (.obj [("text", .str r.text)])
        { outcome := outcome, request_timestamps := stamps,
          waited := waited, sentRequest := true }

end FreshServiceAPI

namespace UserManager

/-- A user record, as the duck-typed dict the source passes around. -/
def User := List (String × JVal)

/-- A dict returned by the API client. -/
def Dict := List (String × JVal)

/-- One API call attempted through the client, with its method, endpoint
(as handed to the client, before any workspace prefixing) and body. -/
structure Request where
  method : String
  endpoint : String
  body : Option (List (String × JVal))

/-- `user.get(key)` truthiness check (`user.get("is_agent", False)` etc.;
an absent key behaves like the falsy default). -/
def getTruthy (u : List (String × JVal)) (key : String) : Bool :=
  match lookupKey u key with
  | some v => v.truthy
  | none => false

/-- `user.get("id") == user_id` for an integer `user_id`. -/
def idMatchesInt (u : List (String × JVal)) (user_id : Int) : Bool :=
  match lookupKey u "id" with
  | some (.num n) => n == user_id
  | _ => false

/-- `response.get(key)` followed by the `if user:` truthiness test, for
the `requester`/`agent` payload extraction.  API payloads under these
keys are JSON objects; an empty object is falsy. -/
def dictUser (resp : Dict) (key : String) : Option User :=
  match lookupKey resp key with
  | some (.obj u) => if (JVal.obj u).truthy then some u else none
  | _ => none

/-- Python dict assignment `d[k] = v` on an insertion-ordered dict:
replace in place when the key exists, append otherwise. -/
def setKey (d : List (String × JVal)) (k : String) (v : JVal) :
    List (String × JVal) :=
  if hasKey d k then d.map (fun kv => if kv.1 == k then (kv.1, v) else kv)
  else d ++ [(k, v)]

/-- Python `d.update(updates)`. -/
def dictUpdate (d : List (String × JVal)) (updates : List (String × JVal)) :
    List (String × JVal) :=
  updates.foldl (fun acc kv => setKey acc kv.1 kv.2) d

/-- `max_recent_users = 10`. -/
def max_recent_users : Nat := 10

/-- `_add_to_recent_users`: drop any cached entry whose id equals the new
user's id, push the new user to the front, trim to the maximum size. -/
def add_to_recent_users (recent_users : List User) (user : User) : List User :=
  let removed := recent_users.filter
    (fun u => !(beqOpt (lookupKey u "id") (lookupKey user "id")))
  (user :: removed).take max_recent_users

/-- The in-place `recent_users[i]["active"] = b` patch applied to the
first cache entry whose id matches. -/
def patchActive (user_id : Int) (b : Bool) : List User → List User
  | [] => []
  | u :: rest =>
      if idMatchesInt u user_id then setKey u "active" (.bool b) :: rest
      else u :: patchActive user_id b rest

/-- `get_user_by_id`: try the requester endpoint, then the agent endpoint;
the two `Except` arguments are the API's answers for those calls
(`.error` models a raised exception, swallowed by the inner handlers).
Returns the found user, the attempted API calls, and the new cache. -/
def get_user_by_id (user_id : Int)
    (reqResp agResp : Except Unit Dict) (cache : List User) :
    Option User × List Request × List User :=
  let r1 : Request := ⟨"GET", "requesters/" ++ toString user_id, none⟩
  let r2 : Request := ⟨"GET", "agents/" ++ toString user_id, none⟩
  let viaRequester : Option User :=
    match reqResp with
    | .ok resp => dictUser resp "requester"
    | .error _ => none
  match viaRequester with
  | some user => (some user, [r1], add_to_recent_users cache user)
  | none =>
      let viaAgent : Option User :=
        match agResp with
        | .ok resp => dictUser resp "agent"
        | .error _ => none
      match viaAgent with
      | some user => (some user, [r1, r2], add_to_recent_users cache user)
      | none => (none, [r1, r2], cache)

/-- `_is_agent`: probe the agent endpoint; `'agent' in response` on
success, `False` on any exception. -/
def is_agent_probe (probeResp : Except Unit Dict) : Bool :=
  match probeResp with
  | .ok resp => hasKey resp "agent"
  | .error _ => false

/-- One step of decimal parsing: the digit value of a character. -/
def decDigitVal (c : Char) : Option Nat :=
  if c.isDigit then some (c.toNat - '0'.toNat) else none

/-- Accumulates the decimal value of a digit run; `none` on a non-digit. -/
def decNat : List Char → Nat → Option Nat
  | [], acc => some acc
  | c :: rest, acc =>
      match decDigitVal c with
      | some d => decNat rest (acc * 10 + d)
      | none => none

/-- Python `int(s)` on a string: an optional sign followed by decimal
digits; anything else raises (`none`). -/
def pyIntOfString (s : String) : Option Int :=
  match s.toList with
  | [] => none
  | '-' :: rest =>
      if rest.isEmpty then none
      else (decNat rest 0).map (fun n => -(n : Int))
  | '+' :: rest =>
      if rest.isEmpty then none
      else (decNat rest 0).map (fun n => (n : Int))
  | cs => (decNat cs 0).map (fun n => (n : Int))

/-- Python `int(value)` as used on `department_ids` entries: integers pass
through, booleans coerce, numeric strings parse; anything else raises
(`none`). -/
def toIntVal : JVal → Option Int
  | .num n => some n
  | .bool b => some (if b then 1 else 0)
  | .str s => pyIntOfString s
  | _ => none

/-- The `department_ids` coercion in `update_user`: a list maps
elementwise through `int`, any scalar becomes a one-element integer
list.  `none` models `int()` raising. -/
def coerce_department_ids : JVal → Option JVal
  | .list vs => (vs.mapM toIntVal).map (fun ns => JVal.list (ns.map JVal.num))
  | v => (toIntVal v).map (fun n => JVal.list [JVal.num n])

/-- The payload-processing loop of `update_user`: `department_ids` is
coerced, every other field passes through unchanged; a raised `int()`
error (`none`) aborts the whole update. -/
def process_update_data : List (String × JVal) → Option (List (String × JVal))
  | [] => some []
  | (k, v) :: rest =>
      if k == "department_ids" then
        match coerce_department_ids v with
        | some pv => (process_update_data rest).map (fun tl => (k, pv) :: tl)
        | none => none
      else (process_update_data rest).map (fun tl => (k, v) :: tl)

/-- `update_user`.  `probeResp` answers the `_is_agent` probe,
`byIdReq`/`byIdAg` answer the `get_user_by_id` calls of the dry-run
branch, `putResp` answers the PUT.  Returns the updated user, the
attempted API calls, and the new cache. -/
def update_user (dry_run : Bool) (user_id : Int)
    (probeResp byIdReq byIdAg putResp : Except Unit Dict)
    (update_data : List (String × JVal)) (cache : List User) :
    Option User × List Request × List User :=
  let probeReq : Request := ⟨"GET", "agents/" ++ toString user_id, none⟩
  let is_agent := is_agent_probe probeResp
  let endpoint := if is_agent then "agents" else "requesters"
  if dry_run then
    let g := get_user_by_id user_id byIdReq byIdAg cache
    match g.1 with
    | some current_user =>
        (some (dictUpdate current_user update_data), probeReq :: g.2.1, g.2.2)
    | none => (none, probeReq :: g.2.1, g.2.2)
  else
    match process_update_data update_data with
    | none => (none, [probeReq], cache)
    | some processed_data =>
        let putReq : Request := ⟨"PUT", endpoint ++ "/" ++ toString user_id, some processed_data⟩
        match putResp with
        | .error _ => (none, [probeReq, putReq], cache)
        | .ok resp =>
            match dictUser resp (if is_agent then "agent" else "requester") with
            | some updated_user =>
                (some updated_user, [probeReq, putReq],
                 add_to_recent_users cache updated_user)
            | none => (none, [probeReq, putReq], cache)

/-- `deactivate_user`.  `delResp` is the truthiness of the DELETE call's
return value (`True` for an expected 204); `.error` models a raised
exception. -/
def deactivate_user (dry_run : Bool) (user_id : Int)
    (reqResp agResp : Except Unit Dict) (delResp : Except Unit Bool)
    (cache : List User) : Bool × List Request × List User :=
  if dry_run then (true, [], cache)
  else
    let g := get_user_by_id user_id reqResp agResp cache
    match g.1 with
    | none => (false, g.2.1, g.2.2)
    | some user =>
        let is_agent := getTruthy user "is_agent"
        let endpoint := if is_agent then "agents" else "requesters"
        let req : Request := ⟨"DELETE", endpoint ++ "/" ++ toString user_id, none⟩
        match delResp with
        | .ok success =>
            if success then (true, g.2.1 ++ [req], patchActive user_id false g.2.2)
            else (false, g.2.1 ++ [req], g.2.2)
        | .error _ => (false, g.2.1 ++ [req], g.2.2)

/-- `forget_user`: requester-pool only; removes the user from the cache
on success. -/
def forget_user (dry_run : Bool) (user_id : Int)
    (reqResp agResp : Except Unit Dict) (delResp : Except Unit Bool)
    (cache : List User) : Bool × List Request × List User :=
  if dry_run then (true, [], cache)
  else
    let g := get_user_by_id user_id reqResp agResp cache
    match g.1 with
    | none => (false, g.2.1, g.2.2)
    | some user =>
        if getTruthy user "is_agent" then (false, g.2.1, g.2.2)
        else
          let req : Request := ⟨"DELETE", "requesters/" ++ toString user_id ++ "/forget", none⟩
          match delResp with
          | .ok success =>
              if success then
                (true, g.2.1 ++ [req],
                 (g.2.2).filter (fun u => !(idMatchesInt u user_id)))
              else (false, g.2.1 ++ [req], g.2.2)
          | .error _ => (false, g.2.1 ++ [req], g.2.2)

/-- `activate_user`: a PUT to `{pool}/{id}/reactivate`; success is a
truthy response dict with no truthy `error` field. -/
def activate_user (dry_run : Bool) (user_id : Int)
    (reqResp agResp : Except Unit Dict) (putResp : Except Unit Dict)
    (cache : List User) : Bool × List Request × List User :=
  if dry_run then (true, [], cache)
  else
    let g := get_user_by_id user_id reqResp agResp cache
    match g.1 with
    | none => (false, g.2.1, g.2.2)
    | some user =>
        let is_agent := getTruthy user "is_agent"
        let endpoint := if is_agent then "agents" else "requesters"
        let req : Request := ⟨"PUT", endpoint ++ "/" ++ toString user_id ++ "/reactivate", some []⟩
        match putResp with
        | .ok resp =>
            if !resp.isEmpty && !(getTruthy resp "error") then
              (true, g.2.1 ++ [req], patchActive user_id true g.2.2)
            else (false, g.2.1 ++ [req], g.2.2)
        | .error _ => (false, g.2.1 ++ [req], g.2.2)

end UserManager

namespace Reports

/-- One step of the stable descending key sort
(Python's `list.sort(key=..., reverse=True)`): insert `a` before the
first element whose key is not larger, so that ties keep their original
relative order. -/
def insertByKeyDesc {α β : Type} [LinearOrder β] (key : α → β) (a : α) :
    List α → List α
  | [] => [a]
  | b :: l => if key b ≤ key a then a :: b :: l else b :: insertByKeyDesc key a l

/-- Python's stable `list.sort(key=..., reverse=True)`. -/
def sortByKeyDesc {α β : Type} [LinearOrder β] (key : α → β) : List α → List α
  | [] => []
  | a :: l => insertByKeyDesc key a (sortByKeyDesc key l)

/-- An activity item (the normalized ticket/conversation dicts built by
the report functions).  `ticket_id`/`conversation_id` hold the
`item.get(...)` values; `has_conversation_id` is `'conversation_id' in
item`; `created_at` is absent (`none`) when the key is missing. -/
structure Item where
  itemType : String
  ticket_id : Option JVal
  has_conversation_id : Bool
  conversation_id : Option JVal
  created_at : Option String

/-- The sort key `lambda x: x.get('created_at', '')`. -/
def createdKey (i : Item) : String := i.created_at.getD ""

/-- Python `x in seen` for a set of id values collected with `==`. -/
def memOpt (x : Option JVal) (seen : List (Option JVal)) : Bool :=
  seen.any (fun y => beqOpt y x)

/-- The summary of `get_user_activity_report`. -/
structure RequesterSummary where
  total_tickets : Int
  date_range : String
  total_conversations : Int

/-- The summary of `get_agent_activity_report` (or the synthesized empty
one carrying an error). -/
structure AgentSummary where
  total_tickets : Int
  total_responses : Int
  assigned_tickets : Int
  collaborated_tickets : Int
  error : Option String
  error_type : Option String

/-- The empty dict `agent_summary = {}` before any agent branch runs
(all `.get(..., 0)` reads yield the defaults). -/
def emptyAgentSummary : AgentSummary :=
  ⟨0, 0, 0, 0, none, none⟩

/-- A raised Python exception: `str(e)` and `type(e).__name__`. -/
structure PyErr where
  msg : String
  kind : String

/-- The combined summary dict of `get_comprehensive_user_activity`;
`Option` fields model conditionally-present keys. -/
structure CombinedSummary where
  total_tickets_created : Int
  total_tickets_worked : Int
  total_conversations_as_requester : Int
  total_responses_as_agent : Int
  tickets_assigned : Int
  tickets_collaborated : Int
  date_range : String
  is_agent : Bool
  agent_activity_attempted : Bool
  agent_error : Option String
  agent_error_type : Option String
  agent_activity_available : Option Bool

/-- The duplicate-avoiding merge loop of `get_comprehensive_user_activity`
(`all` accumulates `all_items`; `tseen`/`cseen` are the seen-id sets). -/
def mergeItems (all : List Item) (tseen cseen : List (Option JVal)) :
    List Item → List Item
  | [] => all
  | item :: rest =>
      if item.itemType == "ticket" then
        if memOpt item.ticket_id tseen then mergeItems all tseen cseen rest
        else mergeItems (all ++ [item]) (tseen ++ [item.ticket_id]) cseen rest
      else if item.itemType == "conversation" then
        if memOpt item.conversation_id cseen then mergeItems all tseen cseen rest
        else mergeItems (all ++ [item]) tseen (cseen ++ [item.conversation_id]) rest
      else mergeItems all tseen cseen rest

/-- `get_comprehensive_user_activity`.  The requester pass's result is
passed in (`requester_items`, `requester_summary`); `isAgentResp` is the
outcome of the `is_agent` probe and `agentResp` the outcome of
`get_agent_activity_report` (`.error` models a raised exception). -/
def get_comprehensive_user_activity
    (requester_items : List Item) (requester_summary : RequesterSummary)
    (user_id_truthy : Bool)
    (isAgentResp : Except PyErr Bool)
    (agentResp : Except PyErr (List Item × AgentSummary)) :
    List Item × CombinedSummary × Bool :=
  let ctx : Bool × List Item × AgentSummary × Option String × Bool :=
    if user_id_truthy then
      match isAgentResp with
      | .error _ => (false, [], emptyAgentSummary, none, false)
      | .ok false => (false, [], emptyAgentSummary, none, false)
      | .ok true =>
          match agentResp with
          | .ok (items, summ) => (true, items, summ, none, true)
          | .error e =>
              (true, [],
               { emptyAgentSummary with
                   error := some e.msg, error_type := some e.kind },
               some e.msg, true)
    else (false, [], emptyAgentSummary, none, false)
  let is_agent := ctx.1
  let agent_items := ctx.2.1
  let agent_summary := ctx.2.2.1
  let agent_error := ctx.2.2.2.1
  let agent_activity_attempted := ctx.2.2.2.2
  let all_items := requester_items
  let ticket_ids_seen :=
    (all_items.filter (fun i => i.itemType == "ticket")).map (·.ticket_id)
  let conversation_ids_seen :=
    (all_items.filter
      (fun i => i.itemType == "conversation" && i.has_conversation_id)).map
      (·.conversation_id)
  let merged := mergeItems all_items ticket_ids_seen conversation_ids_seen agent_items
  let sorted := sortByKeyDesc createdKey merged
  let errTruthy :=
    match agent_error with
    | some m => !m.isEmpty
    | none => false
  let combined_summary : CombinedSummary :=
    { total_tickets_created := requester_summary.total_tickets
      total_tickets_worked := if is_agent then agent_summary.total_tickets else 0
      total_conversations_as_requester := requester_summary.total_conversations
      total_responses_as_agent := if is_agent then agent_summary.total_responses else 0
      tickets_assigned := if is_agent then agent_summary.assigned_tickets else 0
      tickets_collaborated := if is_agent then agent_summary.collaborated_tickets else 0
      date_range := requester_summary.date_range
      is_agent := is_agent
      agent_activity_attempted := agent_activity_attempted
      agent_error := if errTruthy then agent_error else none
      agent_error_type :=
        if errTruthy then some ((agent_summary.error_type).getD "Unknown") else none
      agent_activity_available :=
        if errTruthy then some false
        else if is_agent then some true
        else none }
  (sorted, combined_summary, is_agent)

/-- The relevant fields of a requester/agent payload inside a
`_get_user_last_login` API result; `none` models an absent key and
`some ""` a present-but-falsy value. -/
structure UserPayload where
  last_login_at : Option String
  updated_at : Option String
  created_at : Option String

/-- A ticket inside a `tickets` payload. -/
structure LLTicket where
  created_at : Option String

/-- A dict returned by `_make_request` during the last-login cascade
(`none` fields model absent keys). -/
structure LLApiResult where
  requester : Option UserPayload
  agent : Option UserPayload
  tickets : Option (List LLTicket)

/-- Truthiness of a `.get(...)` string field. -/
def strTruthy : Option String → Bool
  | none => false
  | some s => !s.isEmpty

/-- The final `created_at` fallback of `_get_user_last_login`, reading
whatever dict the local variable `result` last held. -/
def lastLoginFinalFallback (result : LLApiResult) : Option String :=
  match result.requester with
  | some requester =>
      if strTruthy requester.created_at then requester.created_at
      else
        match result.agent with
        | some agent =>
            if strTruthy agent.created_at then agent.created_at else none
        | none => none
  | none =>
      match result.agent with
      | some agent =>
          if strTruthy agent.created_at then agent.created_at else none
      | none => none

/-- `_get_user_last_login`.  The three `Except` arguments are the API's
answers to the requester lookup, the agent lookup and the ticket query;
`.error` models a raised exception.  The requester lookup is not guarded
by an inner handler, so its exception reaches the outer handler and the
function returns `none` at once.  The local variable `result` is
reassigned by each successful call, which is what the final fallback
reads. -/
def get_user_last_login (user_id_truthy : Bool)
    (reqResp agentResp ticketsResp : Except Unit LLApiResult) :
    Option String :=
  match reqResp with
  | .error _ => none
  | .ok result0 =>
      let stepA : Option String :=
        match result0.requester with
        | some requester =>
            if strTruthy requester.last_login_at then requester.last_login_at
            else if strTruthy requester.updated_at then requester.updated_at
            else none
        | none => none
      match stepA with
      | some v => some v
      | none =>
          let (stepB, result1) :=
            if user_id_truthy then
              match agentResp with
              | .ok result =>
                  (match result.agent with
                   | some agent =>
                       if strTruthy agent.last_login_at then agent.last_login_at
                       else if strTruthy agent.updated_at then agent.updated_at
                       else none
                   | none => none, result)
              | .error _ => (none, result0)
            else (none, result0)
          match stepB with
          | some v => some v
          | none =>
              match ticketsResp with
              | .ok result =>
                  match result.tickets with
                  | some (t :: _) => t.created_at
                  | _ => lastLoginFinalFallback result
              | .error _ => lastLoginFinalFallback result1

/-- A date-like string field as the scan sees it: absent/falsy,
present but rejected by `strptime`, or parsed to a timestamp (modelled
in whole seconds). -/
inductive Parsed where
  | absent : Parsed
  | malformed (s : String) : Parsed
  | time (s : String) (t : Int) : Parsed

/-- A member of the scanned population, together with the answer
`_get_user_last_login` gives for its id (`last_login`). -/
structure ScanUser where
  id : Int
  email : Option String
  created_at : Parsed
  last_login : Parsed
  active : Bool

/-- The `days_inactive` field of an inactivity record: a day count or the
literal `"Unknown"`. -/
inductive DaysInactive where
  | unknown : DaysInactive
  | num (d : Int) : DaysInactive

/-- An entry of the inactive-users list. -/
structure InactiveRecord where
  id : Int
  email : Option String
  last_login : Option String
  days_inactive : DaysInactive
  userType : String
  active : Bool

/-- The sort key at the final `inactive_users.sort(...)`:
`999999 if x['days_inactive'] == 'Unknown' else x['days_inactive']`. -/
def scanSortKey (r : InactiveRecord) : Int :=
  match r.days_inactive with
  | .unknown => 999999
  | .num d => d

/-- The per-user body of the scan loops (identical for the agent and the
requester batch loops apart from the `type` tag and the email key).
Returns the record appended to `inactive_users` (if any) and whether
`users_without_login_data` was incremented.  `now` is the clock in
seconds; the cutoff comparison and the floored day count follow the
source's datetime arithmetic. -/
def processUser (now threshold_days : Int) (userType : String)
    (u : ScanUser) : Option InactiveRecord × Bool :=
  let cutoff := now - threshold_days * 86400
  let skip : Bool :=
    match u.created_at with
    | .time _ t => decide (t > cutoff)
    | _ => false
  if skip then (none, false)
  else
    match u.last_login with
    | .absent =>
        (some { id := u.id, email := u.email, last_login := none,
                days_inactive := .unknown, userType := userType,
                active := u.active }, true)
    | .malformed _ => (none, true)
    | .time s t =>
        let days_inactive := Int.fdiv (now - t) 86400
        if days_inactive > threshold_days then
          (some { id := u.id, email := u.email, last_login := some s,
                  days_inactive := .num days_inactive, userType := userType,
                  active := u.active }, false)
        else (none, false)

/-- One population pass of the scan (the batching only paces the same
sequential per-user loop, so it is flattened here).  Returns the records
appended and the number of `users_without_login_data` increments. -/
def scanUsers (now threshold_days : Int) (userType : String) :
    List ScanUser → List InactiveRecord × Nat
  | [] => ([], 0)
  | u :: rest =>
      let pu := processUser now threshold_days userType u
      let srest := scanUsers now threshold_days userType rest
      ((match pu.1 with
        | some r => r :: srest.1
        | none => srest.1),
       (if pu.2 then 1 else 0) + srest.2)

/-- `get_inactive_users_report`: scan the agent population, then the
requester population, then sort the combined list by `days_inactive`
descending with `"Unknown"` mapped to `999999`.  Returns the sorted list
and the `users_without_login_data` count.  The capability probe only
sets reporting metadata and is omitted. -/
def get_inactive_users_report (now threshold_days : Int)
    (agents requesters : List ScanUser)
    (include_agents include_requesters : Bool) :
    List InactiveRecord × Nat :=
  let ag :=
    if include_agents then scanUsers now threshold_days "Agent" agents
    else ([], 0)
  let rq :=
    if include_requesters then scanUsers now threshold_days "Requester" requesters
    else ([], 0)
  (sortByKeyDesc scanSortKey (ag.1 ++ rq.1), ag.2 + rq.2)

end Reports

/-! ## Helper lemmas -/

mutual

/-- `JVal.beq` is reflexive. -/
theorem JVal.beq_refl : (a : JVal) → JVal.beq a a = true
  | .null => rfl
  | .bool b => by simp [JVal.beq]
  | .num n => by simp [JVal.beq]
  | .str s => by simp [JVal.beq]
  | .list items => by rw [JVal.beq]; exact JVal.beqList_refl items
  | .obj fields => by rw [JVal.beq]; exact JVal.beqPairs_refl fields

/-- `JVal.beqList` is reflexive. -/
theorem JVal.beqList_refl : (l : List JVal) → JVal.beqList l l = true
  | [] => rfl
  | a :: as => by
      rw [JVal.beqList, JVal.beq_refl a, JVal.beqList_refl as]; rfl

/-- `JVal.beqPairs` is reflexive. -/
theorem JVal.beqPairs_refl : (l : List (String × JVal)) → JVal.beqPairs l l = true
  | [] => rfl
  | (k, a) :: as => by
      rw [JVal.beqPairs, JVal.beq_refl a, JVal.beqPairs_refl as]
      simp

end

/-- `beqOpt` is reflexive. -/
theorem beqOpt_refl (a : Option JVal) : beqOpt a a = true := by
  cases a with
  | none => rfl
  | some v => exact JVal.beq_refl v

/-! ## Claim C1 -/

/-- C1: while dry-run is enabled, every mutating (POST/PUT/DELETE, i.e.
non-GET) call through `_make_request` reaches no network transport and
returns the synthetic `{dry_run: True, success: True, ...}` dict, while a
GET issued in dry-run still performs the real network call. -/
theorem dry_run_intercepts_mutations_only
    (baseUrl method endpoint : String) (params : List (String × String))
    (workspace_id : Option Int) (expect_no_content _diagnostic : Bool)
    (now sendTime : ℚ) (ts : List ℚ)
    (transport : Except FreshServiceAPI.TransportError FreshServiceAPI.HttpResponse) :
    (method ≠ "GET" →
      (FreshServiceAPI.make_request true baseUrl method endpoint params
        workspace_id expect_no_content _diagnostic now sendTime ts
        transport).sentRequest = false ∧
      (FreshServiceAPI.make_request true baseUrl method endpoint params
        workspace_id expect_no_content _diagnostic now sendTime ts
        transport).outcome = .ok FreshServiceAPI.dryRunDict) ∧
    (FreshServiceAPI.make_request true baseUrl "GET" endpoint params
        workspace_id expect_no_content _diagnostic now sendTime ts
        transport).sentRequest = true := by
  constructor
  · intro h
    constructor <;> simp [FreshServiceAPI.make_request, h]
  · cases transport <;>
      simp [FreshServiceAPI.make_request]

/-- Witness for `dry_run_intercepts_mutations_only` at a concrete input. -/
theorem dry_run_intercepts_mutations_only_witness :
    ("PUT" : String) ≠ "GET" ∧
    (FreshServiceAPI.make_request true "https://acme.freshservice.com/api"
      "PUT" "requesters/7" [] none false false 100 100 []
      (.ok ⟨200, "OK", "", some (.obj []), none⟩)).sentRequest = false := by
  refine ⟨by decide, ?_⟩
  exact (dry_run_intercepts_mutations_only "https://acme.freshservice.com/api"
    "PUT" "requesters/7" [] none false false 100 100 []
    (.ok ⟨200, "OK", "", some (.obj []), none⟩)).1 (by decide) |>.1

/-! ## Claim C2 -/

/-- C2: `_check_rate_limit` is a sliding window: it prunes timestamps
older than the trailing 60-second window; with at least 50 surviving
timestamps it sleeps a positive time that ends exactly when the oldest
surviving timestamp is 60 seconds old; with 49 or fewer it does not
sleep. -/
theorem rate_limiter_sliding_window (now : ℚ) (ts : List ℚ) :
    (FreshServiceAPI.check_rate_limit now ts).2
        = ts.filter (fun t => now - 60 < t) ∧
    (50 ≤ ((FreshServiceAPI.check_rate_limit now ts).2).length →
      ∃ oldest, ((FreshServiceAPI.check_rate_limit now ts).2).min? = some oldest ∧
        0 < (FreshServiceAPI.check_rate_limit now ts).1 ∧
        now + (FreshServiceAPI.check_rate_limit now ts).1 = oldest + 60) ∧
    (((FreshServiceAPI.check_rate_limit now ts).2).length ≤ 49 →
      (FreshServiceAPI.check_rate_limit now ts).1 = 0) := by
  have hpr : (FreshServiceAPI.check_rate_limit now ts).2
      = ts.filter (fun t => now - 60 < t) := by
    simp only [FreshServiceAPI.check_rate_limit, FreshServiceAPI.RATE_LIMIT_WINDOW,
      FreshServiceAPI.RATE_LIMIT, apply_ite Prod.snd]
    simp
  refine ⟨hpr, ?_, ?_⟩
  · intro hlen
    rw [hpr] at hlen
    obtain ⟨m, hm⟩ : ∃ m, (ts.filter (fun t => now - 60 < t)).min? = some m := by
      cases hpe : ts.filter (fun t => now - 60 < t) with
      | nil => rw [hpe] at hlen; simp at hlen
      | cons x l => exact ⟨_, by rw [List.min?_cons]⟩
    have hmem : m ∈ ts.filter (fun t => now - 60 < t) :=
      List.min?_mem (fun a b => min_choice a b) hm
    have hcond : now - 60 < m := by
      have h2 := (List.mem_filter.mp hmem).2
      exact of_decide_eq_true h2
    have hc : FreshServiceAPI.check_rate_limit now ts
        = (60 - (now - m), ts.filter (fun t => now - 60 < t)) := by
      simp only [FreshServiceAPI.check_rate_limit, FreshServiceAPI.RATE_LIMIT_WINDOW,
        FreshServiceAPI.RATE_LIMIT]
      rw [if_pos hlen, hm]
      simp only [Option.getD_some]
      rw [if_pos (by linarith)]
    refine ⟨m, ?_, ?_, ?_⟩
    · rw [hpr]; exact hm
    · rw [hc]; dsimp only; linarith
    · rw [hc]; dsimp only; ring
  · intro hlen
    rw [hpr] at hlen
    have hnot : ¬ (50 ≤ (ts.filter (fun t => now - 60 < t)).length) := by omega
    simp only [FreshServiceAPI.check_rate_limit, FreshServiceAPI.RATE_LIMIT_WINDOW,
      FreshServiceAPI.RATE_LIMIT]
    rw [if_neg hnot]

/-- Witness for `rate_limiter_sliding_window` at a concrete input: 50
fresh timestamps force a positive wait; the same limiter with one stale
timestamp does not wait. -/
theorem rate_limiter_sliding_window_witness :
    (50 ≤ ((FreshServiceAPI.check_rate_limit 100 (List.replicate 50 90)).2).length ∧
      ∃ oldest,
        ((FreshServiceAPI.check_rate_limit 100 (List.replicate 50 90)).2).min? = some oldest ∧
        0 < (FreshServiceAPI.check_rate_limit 100 (List.replicate 50 90)).1 ∧
        (100 : ℚ) + (FreshServiceAPI.check_rate_limit 100 (List.replicate 50 90)).1 = oldest + 60) ∧
    (((FreshServiceAPI.check_rate_limit 100 [10]).2).length ≤ 49 ∧
      (FreshServiceAPI.check_rate_limit 100 [10]).1 = 0) := by
  constructor
  · have h := (rate_limiter_sliding_window 100 (List.replicate 50 90)).2.1
    have h2 : (FreshServiceAPI.check_rate_limit 100 (List.replicate 50 90)).2
        = List.replicate 50 (90 : ℚ) := by
      rw [(rate_limiter_sliding_window 100 (List.replicate 50 90)).1]
      rw [List.filter_replicate]
      norm_num
    have hlen : 50 ≤ ((FreshServiceAPI.check_rate_limit 100 (List.replicate 50 90)).2).length := by
      rw [h2]; simp
    exact ⟨hlen, h hlen⟩
  · have h := (rate_limiter_sliding_window 100 [10]).2.2
    have h2 : (FreshServiceAPI.check_rate_limit 100 [10]).2 = ([] : List ℚ) := by
      rw [(rate_limiter_sliding_window 100 [10]).1]
      norm_num [List.filter]
    have hlen : ((FreshServiceAPI.check_rate_limit 100 [10]).2).length ≤ 49 := by
      rw [h2]; simp
    exact ⟨hlen, h hlen⟩

/-! ## Claim C3 -/

/-- C3 counterexample: a dry-run-intercepted PUT leaves the rate window's
timestamp list empty — the dry-run return happens before the
`request_timestamps.append`, so no entry is recorded for that call. -/
theorem dry_run_send_records_no_timestamp :
    (FreshServiceAPI.make_request true "https://acme.freshservice.com/api"
      "PUT" "requesters/7" [] none false false 100 100 []
      (.ok ⟨200, "OK", "", some (.obj []), none⟩)).request_timestamps = [] := by
  simp [FreshServiceAPI.make_request, FreshServiceAPI.check_rate_limit,
    FreshServiceAPI.RATE_LIMIT, FreshServiceAPI.RATE_LIMIT_WINDOW]

/-- C3 amended: only a send that actually reaches the transport appends a
timestamp to the rate window; a dry-run-intercepted mutating call leaves
the window with just the pruning applied (its slot is not consumed). -/
theorem rate_window_records_only_real_sends
    (dry_run : Bool) (baseUrl method endpoint : String)
    (params : List (String × String)) (workspace_id : Option Int)
    (expect_no_content _diagnostic : Bool) (now sendTime : ℚ) (ts : List ℚ)
    (transport : Except FreshServiceAPI.TransportError FreshServiceAPI.HttpResponse) :
    (dry_run = true → method ≠ "GET" →
      (FreshServiceAPI.make_request dry_run baseUrl method endpoint params
        workspace_id expect_no_content _diagnostic now sendTime ts
        transport).request_timestamps
        = (FreshServiceAPI.check_rate_limit now ts).2) ∧
    ((dry_run && method != "GET") = false →
      (FreshServiceAPI.make_request dry_run baseUrl method endpoint params
        workspace_id expect_no_content _diagnostic now sendTime ts
        transport).request_timestamps
        = (FreshServiceAPI.check_rate_limit now ts).2 ++ [sendTime]) := by
  constructor
  · intro hd hm
    subst hd
    simp [FreshServiceAPI.make_request, hm]
  · intro h
    cases transport <;> simp [FreshServiceAPI.make_request, h]

/-- Witness for `rate_window_records_only_real_sends` at concrete
inputs (one intercepted PUT, one real GET). -/
theorem rate_window_records_only_real_sends_witness :
    ((true : Bool) = true ∧ ("PUT" : String) ≠ "GET" ∧
      (FreshServiceAPI.make_request true "https://acme.freshservice.com/api"
        "PUT" "requesters/7" [] none false false 100 100 []
        (.ok ⟨200, "OK", "", some (.obj []), none⟩)).request_timestamps
        = (FreshServiceAPI.check_rate_limit 100 []).2) ∧
    ((false && ("GET" != "GET")) = false ∧
      (FreshServiceAPI.make_request false "https://acme.freshservice.com/api"
        "GET" "requesters/7" [] none false false 100 101 []
        (.ok ⟨200, "OK", "", some (.obj []), none⟩)).request_timestamps
        = (FreshServiceAPI.check_rate_limit 100 []).2 ++ [101]) := by
  constructor
  · exact ⟨rfl, by decide,
      (rate_window_records_only_real_sends true "https://acme.freshservice.com/api"
        "PUT" "requesters/7" [] none false false 100 100 []
        (.ok ⟨200, "OK", "", some (.obj []), none⟩)).1 rfl (by decide)⟩
  · exact ⟨by decide,
      (rate_window_records_only_real_sends false "https://acme.freshservice.com/api"
        "GET" "requesters/7" [] none false false 100 101 []
        (.ok ⟨200, "OK", "", some (.obj []), none⟩)).2 (by decide)⟩

/-! ## Claim C8 -/

/-- C8: a 404 on an endpoint containing `audit_logs` returns the
structured soft-failure value `{success: False, status_code: 404,
error: ..., response: {audit_logs: []}}` in diagnostic mode, and raises
an error whose message explains the resource may not be available on the
plan (not a generic 404) outside diagnostic mode. -/
theorem audit_logs_404_soft_failure
    (dry_run : Bool) (baseUrl method endpoint : String)
    (params : List (String × String)) (workspace_id : Option Int)
    (expect_no_content : Bool) (now sendTime : ℚ) (ts : List ℚ)
    (r : FreshServiceAPI.HttpResponse)
    (hdry : (dry_run && (method != "GET")) = false)
    (hstatus : r.status = 404)
    (hep : containsSub "audit_logs" endpoint = true) :
    (FreshServiceAPI.make_request dry_run baseUrl method endpoint params
        workspace_id expect_no_content true now sendTime ts (.ok r)).outcome
      = .ok (.obj [("success", .bool false),
                   ("error", .str FreshServiceAPI.auditLogsMessage),
                   ("status_code", .num 404),
                   ("response", .obj [("audit_logs", .list [])])]) ∧
    (FreshServiceAPI.make_request dry_run baseUrl method endpoint params
        workspace_id expect_no_content false now sendTime ts (.ok r)).outcome
      = .err FreshServiceAPI.auditLogsMessage ∧
    containsSub "may not be available in your Freshservice plan"
      FreshServiceAPI.auditLogsMessage = true := by
  refine ⟨?_, ?_, ?_⟩
  · simp [FreshServiceAPI.make_request, hdry, hstatus, hep]
  · simp [FreshServiceAPI.make_request, hdry, hstatus, hep]
  · decide

/-- Witness for `audit_logs_404_soft_failure` at a concrete input. -/
theorem audit_logs_404_soft_failure_witness :
    ((false && (("GET" : String) != "GET")) = false ∧
      (404 : Nat) = 404 ∧
      containsSub "audit_logs" "audit_logs" = true) ∧
    (FreshServiceAPI.make_request false "https://acme.freshservice.com/api"
        "GET" "audit_logs" [] none false true 100 100 []
        (.ok ⟨404, "Not Found", "", none, none⟩)).outcome
      = .ok (.obj [("success", .bool false),
                   ("error", .str FreshServiceAPI.auditLogsMessage),
                   ("status_code", .num 404),
                   ("response", .obj [("audit_logs", .list [])])]) := by
  refine ⟨⟨by decide, rfl, by decide⟩, ?_⟩
  exact (audit_logs_404_soft_failure false "https://acme.freshservice.com/api"
    "GET" "audit_logs" [] none false 100 100 []
    ⟨404, "Not Found", "", none, none⟩ (by decide) rfl (by decide)).1

/-! ## Claim C10 -/

/-- C10: with dry-run enabled, `deactivate_user`, `activate_user` and
`forget_user` return `True` immediately for every user id and every
possible API behaviour — no lookup requests are issued, no pool
membership is determined, and the recent-users cache is untouched; in
particular this holds when the id is unresolvable (both lookups error)
and, for `forget_user`, when the target is in the agent pool. -/
theorem dry_run_user_mutations_return_true
    (user_id : Int) (reqResp agResp : Except Unit UserManager.Dict)
    (delResp : Except Unit Bool) (putResp : Except Unit UserManager.Dict)
    (cache : List UserManager.User) :
    UserManager.deactivate_user true user_id reqResp agResp delResp cache
      = (true, [], cache) ∧
    UserManager.forget_user true user_id reqResp agResp delResp cache
      = (true, [], cache) ∧
    UserManager.activate_user true user_id reqResp agResp putResp cache
      = (true, [], cache) :=
  ⟨rfl, rfl, rfl⟩

/-- Fields of a successfully processed update payload: non-`department_ids`
entries pass through unchanged, `department_ids` entries are replaced by
their coerced value. -/
theorem process_update_data_mem (update_data pd : List (String × JVal))
    (h : UserManager.process_update_data update_data = some pd) :
    (∀ kv ∈ update_data, kv.1 ≠ "department_ids" → kv ∈ pd) ∧
    (∀ kv ∈ update_data, kv.1 = "department_ids" →
      ∃ pv, UserManager.coerce_department_ids kv.2 = some pv ∧ (kv.1, pv) ∈ pd) := by
  induction update_data generalizing pd with
  | nil => simp
  | cons kv rest ih =>
      obtain ⟨k, v⟩ := kv
      rw [UserManager.process_update_data] at h
      by_cases hk : k = "department_ids"
      · rw [if_pos (by simp [hk])] at h
        cases hc : UserManager.coerce_department_ids v with
        | none => rw [hc] at h; cases h
        | some pv =>
            rw [hc] at h
            cases hrest : UserManager.process_update_data rest with
            | none => rw [hrest] at h; cases h
            | some tl =>
                rw [hrest] at h
                have hpd : pd = (k, pv) :: tl := (Option.some.inj h).symm
                subst hpd
                obtain ⟨h1, h2⟩ := ih tl hrest
                constructor
                · intro kv2 hmem hne
                  rcases List.mem_cons.mp hmem with heq | hmem2
                  · exact absurd (by rw [heq, hk]) hne
                  · exact List.mem_cons_of_mem _ (h1 kv2 hmem2 hne)
                · intro kv2 hmem hkeq
                  rcases List.mem_cons.mp hmem with heq | hmem2
                  · subst heq
                    exact ⟨pv, hc, List.mem_cons_self _ _⟩
                  · obtain ⟨pv2, hpv2, hmem3⟩ := h2 kv2 hmem2 hkeq
                    exact ⟨pv2, hpv2, List.mem_cons_of_mem _ hmem3⟩
      · rw [if_neg (by simp [hk])] at h
        cases hrest : UserManager.process_update_data rest with
        | none => rw [hrest] at h; cases h
        | some tl =>
            rw [hrest] at h
            have hpd : pd = (k, v) :: tl := (Option.some.inj h).symm
            subst hpd
            obtain ⟨h1, h2⟩ := ih tl hrest
            constructor
            · intro kv2 hmem hne
              rcases List.mem_cons.mp hmem with heq | hmem2
              · subst heq; exact List.mem_cons_self _ _
              · exact List.mem_cons_of_mem _ (h1 kv2 hmem2 hne)
            · intro kv2 hmem hkeq
              rcases List.mem_cons.mp hmem with heq | hmem2
              · subst heq; exact absurd hkeq hk
              · obtain ⟨pv2, hpv2, hmem3⟩ := h2 kv2 hmem2 hkeq
                exact ⟨pv2, hpv2, List.mem_cons_of_mem _ hmem3⟩

/-! ## Claim C4 -/

/-- C4: every sent update payload has its `department_ids` value coerced
to a list of integers (lists map elementwise through `int`, scalars such
as `"5"` become `[5]`) while all other fields pass through unchanged, and
an update of a user resolved to the agent pool issues exactly one PUT to
`agents/{id}` carrying the transformed body; concretely,
`update(42, {first_name: "A", department_ids: 7})` against an
agent-probe hit logs one `GET agents/42` and one
`PUT agents/42 {first_name: "A", department_ids: [7]}`. -/
theorem department_ids_coercion_and_single_put
    (user_id : Int) (probeResp byIdReq byIdAg putResp : Except Unit UserManager.Dict)
    (update_data pd : List (String × JVal)) (cache : List UserManager.User)
    (hproc : UserManager.process_update_data update_data = some pd)
    (hprobe : UserManager.is_agent_probe probeResp = true) :
    (∀ v pv, UserManager.coerce_department_ids v = some pv →
      ∃ ns : List Int, pv = JVal.list (ns.map JVal.num)) ∧
    (∀ vs ns, vs.mapM UserManager.toIntVal = some ns →
      UserManager.coerce_department_ids (JVal.list vs)
        = some (JVal.list (ns.map JVal.num))) ∧
    (UserManager.coerce_department_ids (JVal.str "5")
        = some (JVal.list [JVal.num 5])) ∧
    (∀ kv ∈ update_data, kv.1 ≠ "department_ids" → kv ∈ pd) ∧
    (∀ kv ∈ update_data, kv.1 = "department_ids" →
      ∃ pv, UserManager.coerce_department_ids kv.2 = some pv ∧ (kv.1, pv) ∈ pd) ∧
    (((UserManager.update_user false user_id probeResp byIdReq byIdAg putResp
        update_data cache).2.1).filter (fun r => r.method == "PUT")
      = [⟨"PUT", "agents" ++ "/" ++ toString user_id, some pd⟩]) ∧
    ((UserManager.update_user false 42 (.ok [("agent", JVal.obj [])])
        byIdReq byIdAg putResp
        [("first_name", JVal.str "A"), ("department_ids", JVal.num 7)] cache).2.1
      = [⟨"GET", "agents/42", none⟩,
         ⟨"PUT", "agents/42",
          some [("first_name", JVal.str "A"),
                ("department_ids", JVal.list [JVal.num 7])]⟩]) := by
  refine ⟨?_, ?_, ?_, (process_update_data_mem update_data pd hproc).1,
    (process_update_data_mem update_data pd hproc).2, ?_, ?_⟩
  · intro v pv hc
    cases v with
    | list vs =>
        simp only [UserManager.coerce_department_ids] at hc
        cases hm : vs.mapM UserManager.toIntVal with
        | none => rw [hm] at hc; cases hc
        | some ns =>
            rw [hm] at hc
            exact ⟨ns, (Option.some.inj hc).symm⟩
    | null =>
        simp only [UserManager.coerce_department_ids, UserManager.toIntVal] at hc
        cases hc
    | bool b =>
        refine ⟨[if b then 1 else 0], ?_⟩
        simp only [UserManager.coerce_department_ids, UserManager.toIntVal] at hc
        simp [← Option.some.inj hc]
    | num n =>
        refine ⟨[n], ?_⟩
        simp only [UserManager.coerce_department_ids, UserManager.toIntVal] at hc
        simp [← Option.some.inj hc]
    | str s =>
        simp only [UserManager.coerce_department_ids, UserManager.toIntVal] at hc
        cases hs : UserManager.pyIntOfString s with
        | none => rw [hs] at hc; cases hc
        | some n =>
            rw [hs] at hc
            exact ⟨[n], by simpa using (Option.some.inj hc).symm⟩
    | obj kvs =>
        simp only [UserManager.coerce_department_ids, UserManager.toIntVal] at hc
        cases hc
  · intro vs ns hm
    simp only [UserManager.coerce_department_ids]
    rw [hm]
    rfl
  · rfl
  · cases putResp with
    | error e =>
        simp [UserManager.update_user, hprobe, hproc, List.filter]
    | ok resp =>
        cases hdu : UserManager.dictUser resp "agent" with
        | none => simp [UserManager.update_user, hprobe, hproc, hdu, List.filter]
        | some u => simp [UserManager.update_user, hprobe, hproc, hdu, List.filter]
  · cases putResp with
    | error e => rfl
    | ok resp =>
        have hpr : UserManager.is_agent_probe (.ok [("agent", JVal.obj [])]) = true := rfl
        cases hdu : UserManager.dictUser resp "agent" with
        | none =>
            simp only [UserManager.update_user, hpr, if_true, if_pos rfl]
            simp only [hdu]
            rfl
        | some u =>
            simp only [UserManager.update_user, hpr, if_true, if_pos rfl]
            simp only [hdu]
            rfl

/-- Witness for `department_ids_coercion_and_single_put` at a concrete
input. -/
theorem department_ids_coercion_and_single_put_witness :
    (UserManager.process_update_data
        [("first_name", JVal.str "A"), ("department_ids", JVal.num 7)]
      = some [("first_name", JVal.str "A"),
              ("department_ids", JVal.list [JVal.num 7])]) ∧
    (UserManager.is_agent_probe (.ok [("agent", JVal.obj [])]) = true) ∧
    ((UserManager.update_user false 42 (.ok [("agent", JVal.obj [])])
        (.error ()) (.error ()) (.error ())
        [("first_name", JVal.str "A"), ("department_ids", JVal.num 7)] []).2.1
      = [⟨"GET", "agents/42", none⟩,
         ⟨"PUT", "agents/42",
          some [("first_name", JVal.str "A"),
                ("department_ids", JVal.list [JVal.num 7])]⟩]) := by
  refine ⟨rfl, rfl, ?_⟩
  exact (department_ids_coercion_and_single_put 42 (.ok [("agent", JVal.obj [])])
    (.error ()) (.error ()) (.error ())
    [("first_name", JVal.str "A"), ("department_ids", JVal.num 7)]
    [("first_name", JVal.str "A"), ("department_ids", JVal.list [JVal.num 7])]
    [] rfl rfl).2.2.2.2.2.2

/-! ## Claim C9 -/

/-- `find?` on a key predicate commutes with a key-preserving map. -/
theorem find?_map_key_preserving (p : String → Bool)
    (f : String × JVal → String × JVal) (hf : ∀ kv, (f kv).1 = kv.1) :
    ∀ dd : List (String × JVal),
      (dd.map f).find? (fun kv => p kv.1) =
        Option.map f (dd.find? (fun kv => p kv.1)) := by
  intro dd
  induction dd with
  | nil => rfl
  | cons kv rest ih =>
      rw [List.map_cons]
      cases hpa : p kv.1 with
      | true => simp [List.find?, hf, hpa]
      | false => simp [List.find?, hf, hpa, ih]

/-- `setKey` on a different key leaves a lookup unchanged. -/
theorem lookupKey_setKey_ne (d : List (String × JVal)) (k k' : String)
    (v : JVal) (h : ¬ k' = k) :
    lookupKey (UserManager.setKey d k v) k' = lookupKey d k' := by
  have hkk : (k == k') = false := by
    simp only [beq_eq_false_iff_ne, ne_eq]
    intro hkk
    exact h hkk.symm
  unfold UserManager.setKey
  by_cases hk : hasKey d k = true
  · rw [if_pos hk]
    unfold lookupKey
    rw [find?_map_key_preserving (fun s => s == k')
      (fun kv => if kv.1 == k then (kv.1, v) else kv)
      (fun kv => by by_cases h1 : (kv.1 == k) = true <;> simp [h1])]
    cases ho : d.find? (fun kv => kv.1 == k') with
    | none => rfl
    | some w =>
        have hw1 := List.find?_some ho
        have hwk : (w.1 == k) = false := by
          have hw2 : w.1 = k' := by simpa using hw1
          simp only [hw2, beq_eq_false_iff_ne, ne_eq]
          exact h
        have hne : ¬ w.1 = k := by simpa using hwk
        simp [hne]
  · rw [if_neg hk]
    unfold lookupKey
    rw [List.find?_append]
    cases hfd : List.find? (fun kv => kv.1 == k') d with
    | some u => simp
    | none => simp [List.find?, hkk]

/-- `_add_to_recent_users` puts the new user at the front. -/
theorem add_to_recent_users_head (cache : List UserManager.User)
    (user : UserManager.User) :
    (UserManager.add_to_recent_users cache user).head? = some user := by
  unfold UserManager.add_to_recent_users UserManager.max_recent_users
  rw [show (10 : Nat) = 9 + 1 from rfl, List.take_succ_cons]
  rfl

/-- After `_add_to_recent_users`, exactly one cache entry carries the new
user's id (as the code compares ids): the new front entry itself. -/
theorem add_to_recent_users_filter (cache : List UserManager.User)
    (user : UserManager.User) :
    (UserManager.add_to_recent_users cache user).filter
      (fun v => beqOpt (lookupKey v "id") (lookupKey user "id")) = [user] := by
  unfold UserManager.add_to_recent_users UserManager.max_recent_users
  rw [show (10 : Nat) = 9 + 1 from rfl, List.take_succ_cons]
  rw [List.filter_cons]
  rw [if_pos (beqOpt_refl _)]
  have hnil : (List.take 9 (cache.filter
      (fun u => !(beqOpt (lookupKey u "id") (lookupKey user "id"))))).filter
      (fun v => beqOpt (lookupKey v "id") (lookupKey user "id")) = [] := by
    rw [List.filter_eq_nil_iff]
    intro v hv
    have hmem := List.take_subset _ _ hv
    have := (List.mem_filter.mp hmem).2
    simp only [Bool.not_eq_true'] at this
    simp [this]
  rw [hnil]

/-- `_add_to_recent_users` keeps the cache within its size bound. -/
theorem add_to_recent_users_length (cache : List UserManager.User)
    (user : UserManager.User) :
    (UserManager.add_to_recent_users cache user).length
      ≤ UserManager.max_recent_users := by
  unfold UserManager.add_to_recent_users
  exact List.length_take_le _ _

/-- `_add_to_recent_users` preserves id-distinctness of the cache. -/
theorem add_to_recent_users_pairwise (cache : List UserManager.User)
    (user : UserManager.User)
    (hids : List.Pairwise
      (fun u v => beqOpt (lookupKey v "id") (lookupKey u "id") = false) cache) :
    List.Pairwise
      (fun u v => beqOpt (lookupKey v "id") (lookupKey u "id") = false)
      (UserManager.add_to_recent_users cache user) := by
  unfold UserManager.add_to_recent_users
  apply List.Pairwise.sublist (List.take_sublist _ _)
  rw [List.pairwise_cons]
  constructor
  · intro v hv
    have := (List.mem_filter.mp hv).2
    simpa using this
  · exact hids.sublist (List.filter_sublist _)

/-- Elements of the patched cache have the ids of original elements. -/
theorem patchActive_ids (user_id : Int) (b : Bool) :
    ∀ l : List UserManager.User, ∀ v ∈ UserManager.patchActive user_id b l,
      ∃ w ∈ l, lookupKey v "id" = lookupKey w "id" := by
  intro l
  induction l with
  | nil => intro v hv; cases hv
  | cons u rest ih =>
      intro v hv
      by_cases hu : UserManager.idMatchesInt u user_id = true
      · rw [UserManager.patchActive, if_pos hu] at hv
        rcases List.mem_cons.mp hv with heq | hmem
        · exact ⟨u, List.mem_cons_self _ _,
            by rw [heq]; exact lookupKey_setKey_ne u "active" "id" _ (by decide)⟩
        · exact ⟨v, List.mem_cons_of_mem _ hmem, rfl⟩
      · rw [UserManager.patchActive, if_neg hu] at hv
        rcases List.mem_cons.mp hv with heq | hmem
        · exact ⟨u, List.mem_cons_self _ _, by rw [heq]⟩
        · obtain ⟨w, hw, he⟩ := ih v hmem
          exact ⟨w, List.mem_cons_of_mem _ hw, he⟩

/-- The in-place active-flag patch does not change the cache length. -/
theorem patchActive_length (user_id : Int) (b : Bool) :
    ∀ l : List UserManager.User,
      (UserManager.patchActive user_id b l).length = l.length := by
  intro l
  induction l with
  | nil => rfl
  | cons u rest ih =>
      by_cases hu : UserManager.idMatchesInt u user_id = true
      · rw [UserManager.patchActive, if_pos hu]; simp
      · rw [UserManager.patchActive, if_neg hu]; simp [ih]

/-- The in-place active-flag patch preserves id-distinctness. -/
theorem patchActive_pairwise (user_id : Int) (b : Bool) :
    ∀ l : List UserManager.User,
      List.Pairwise
        (fun u v => beqOpt (lookupKey v "id") (lookupKey u "id") = false) l →
      List.Pairwise
        (fun u v => beqOpt (lookupKey v "id") (lookupKey u "id") = false)
        (UserManager.patchActive user_id b l) := by
  intro l
  induction l with
  | nil => intro h; exact h
  | cons u rest ih =>
      intro h
      rw [List.pairwise_cons] at h
      obtain ⟨hu, hrest⟩ := h
      by_cases hm : UserManager.idMatchesInt u user_id = true
      · rw [UserManager.patchActive, if_pos hm]
        rw [List.pairwise_cons]
        refine ⟨?_, hrest⟩
        intro v hv
        rw [lookupKey_setKey_ne u "active" "id" _ (by decide)]
        exact hu v hv
      · rw [UserManager.patchActive, if_neg hm]
        rw [List.pairwise_cons]
        refine ⟨?_, ih hrest⟩
        intro v hv
        obtain ⟨w, hw, he⟩ := patchActive_ids user_id b rest v hv
        rw [he]
        exact hu w hw

/-- C9: the recent-users cache invariant — length at most 10 and no two
entries with the same id — is preserved by every operation that touches
the cache (the `_add_to_recent_users` insertion, the in-place active-flag
patch of deactivate/activate, and the removal done by forget); after any
insertion the new user sits at the front and is the only entry with its
id; and resolving the same id twice through `get_user_by_id` leaves
exactly one entry for that id, at the front. -/
theorem recent_users_cache_invariant
    (cache : List UserManager.User) (user : UserManager.User)
    (user_id user_id2 : Int) (b : Bool)
    (resp : UserManager.Dict) (agResp : Except Unit UserManager.Dict)
    (u : UserManager.User)
    (hlen : cache.length ≤ UserManager.max_recent_users)
    (hids : List.Pairwise
      (fun x y => beqOpt (lookupKey y "id") (lookupKey x "id") = false) cache)
    (hfound : UserManager.dictUser resp "requester" = some u) :
    ((UserManager.add_to_recent_users cache user).length
        ≤ UserManager.max_recent_users ∧
     List.Pairwise
       (fun x y => beqOpt (lookupKey y "id") (lookupKey x "id") = false)
       (UserManager.add_to_recent_users cache user) ∧
     (UserManager.add_to_recent_users cache user).head? = some user ∧
     (UserManager.add_to_recent_users cache user).filter
       (fun v => beqOpt (lookupKey v "id") (lookupKey user "id")) = [user]) ∧
    ((UserManager.patchActive user_id b cache).length
        ≤ UserManager.max_recent_users ∧
     List.Pairwise
       (fun x y => beqOpt (lookupKey y "id") (lookupKey x "id") = false)
       (UserManager.patchActive user_id b cache)) ∧
    ((cache.filter (fun v => !(UserManager.idMatchesInt v user_id))).length
        ≤ UserManager.max_recent_users ∧
     List.Pairwise
       (fun x y => beqOpt (lookupKey y "id") (lookupKey x "id") = false)
       (cache.filter (fun v => !(UserManager.idMatchesInt v user_id)))) ∧
    ((UserManager.get_user_by_id user_id2 (.ok resp) agResp
        ((UserManager.get_user_by_id user_id2 (.ok resp) agResp cache).2.2)).2.2.head?
        = some u ∧
     (UserManager.get_user_by_id user_id2 (.ok resp) agResp
        ((UserManager.get_user_by_id user_id2 (.ok resp) agResp cache).2.2)).2.2.filter
       (fun v => beqOpt (lookupKey v "id") (lookupKey u "id")) = [u]) := by
  refine ⟨⟨add_to_recent_users_length cache user,
           add_to_recent_users_pairwise cache user hids,
           add_to_recent_users_head cache user,
           add_to_recent_users_filter cache user⟩,
          ⟨?_, patchActive_pairwise user_id b cache hids⟩,
          ⟨le_trans (List.length_filter_le _ _) hlen,
           hids.sublist (List.filter_sublist _)⟩,
          ?_⟩
  · rw [patchActive_length]
    exact hlen
  · have hbyid : ∀ c : List UserManager.User,
        (UserManager.get_user_by_id user_id2 (.ok resp) agResp c).2.2
          = UserManager.add_to_recent_users c u := by
      intro c
      simp [UserManager.get_user_by_id, hfound]
    rw [hbyid, hbyid]
    exact ⟨add_to_recent_users_head _ u, add_to_recent_users_filter _ u⟩

/-- Witness for `recent_users_cache_invariant` at a concrete input. -/
theorem recent_users_cache_invariant_witness :
    (([] : List UserManager.User).length ≤ UserManager.max_recent_users ∧
     UserManager.dictUser [("requester", JVal.obj [("id", JVal.num 3)])]
       "requester" = some [("id", JVal.num 3)]) ∧
    ((UserManager.add_to_recent_users [] [("id", JVal.num 1)]).head?
        = some [("id", JVal.num 1)] ∧
     (UserManager.get_user_by_id 3
        (.ok [("requester", JVal.obj [("id", JVal.num 3)])]) (.error ())
        ((UserManager.get_user_by_id 3
          (.ok [("requester", JVal.obj [("id", JVal.num 3)])]) (.error ())
          []).2.2)).2.2.head? = some [("id", JVal.num 3)]) := by
  refine ⟨⟨by simp [UserManager.max_recent_users], rfl⟩, ?_, ?_⟩
  · exact (recent_users_cache_invariant [] [("id", JVal.num 1)] 1 3 false
      [("requester", JVal.obj [("id", JVal.num 3)])] (.error ())
      [("id", JVal.num 3)] (by simp [UserManager.max_recent_users])
      List.Pairwise.nil rfl).1.2.2.1
  · exact (recent_users_cache_invariant [] [("id", JVal.num 1)] 1 3 false
      [("requester", JVal.obj [("id", JVal.num 3)])] (.error ())
      [("id", JVal.num 3)] (by simp [UserManager.max_recent_users])
      List.Pairwise.nil rfl).2.2.2.1

/-- Membership is preserved by the descending insertion. -/
theorem mem_insertByKeyDesc {α β : Type} [LinearOrder β] (key : α → β)
    (a x : α) : ∀ l : List α,
    (x ∈ Reports.insertByKeyDesc key a l ↔ x = a ∨ x ∈ l) := by
  intro l
  induction l with
  | nil => simp [Reports.insertByKeyDesc]
  | cons b t ih =>
      rw [Reports.insertByKeyDesc]
      by_cases hc : key b ≤ key a
      · rw [if_pos hc]
        simp [List.mem_cons, or_comm, or_assoc, or_left_comm]
      · rw [if_neg hc]
        simp only [List.mem_cons, ih]
        tauto

/-- The descending insertion keeps the list sorted by non-increasing
key. -/
theorem pairwise_insertByKeyDesc {α β : Type} [LinearOrder β] (key : α → β)
    (a : α) : ∀ l : List α,
    List.Pairwise (fun x y => key y ≤ key x) l →
    List.Pairwise (fun x y => key y ≤ key x)
      (Reports.insertByKeyDesc key a l) := by
  intro l
  induction l with
  | nil => intro _; simp [Reports.insertByKeyDesc]
  | cons b t ih =>
      intro h
      rw [List.pairwise_cons] at h
      obtain ⟨hb, ht⟩ := h
      rw [Reports.insertByKeyDesc]
      by_cases hc : key b ≤ key a
      · rw [if_pos hc]
        rw [List.pairwise_cons]
        constructor
        · intro y hy
          rcases List.mem_cons.mp hy with heq | hmem
          · rw [heq]; exact hc
          · exact le_trans (hb y hmem) hc
        · rw [List.pairwise_cons]; exact ⟨hb, ht⟩
      · rw [if_neg hc]
        rw [List.pairwise_cons]
        constructor
        · intro y hy
          rcases (mem_insertByKeyDesc key a y t).mp hy with heq | hmem
          · rw [heq]; exact le_of_lt (lt_of_not_le hc)
          · exact hb y hmem
        · exact ih ht

/-- `sortByKeyDesc` sorts by non-increasing key. -/
theorem pairwise_sortByKeyDesc {α β : Type} [LinearOrder β] (key : α → β) :
    ∀ l : List α,
    List.Pairwise (fun x y => key y ≤ key x) (Reports.sortByKeyDesc key l) := by
  intro l
  induction l with
  | nil => simp [Reports.sortByKeyDesc]
  | cons a t ih =>
      rw [Reports.sortByKeyDesc]
      exact pairwise_insertByKeyDesc key a _ ih

/-- `sortByKeyDesc` permutes membership only. -/
theorem mem_sortByKeyDesc {α β : Type} [LinearOrder β] (key : α → β)
    (x : α) : ∀ l : List α, (x ∈ Reports.sortByKeyDesc key l ↔ x ∈ l) := by
  intro l
  induction l with
  | nil => simp [Reports.sortByKeyDesc]
  | cons a t ih =>
      rw [Reports.sortByKeyDesc, mem_insertByKeyDesc]
      simp [ih]

/-- `sortByKeyDesc` leaves an already-sorted list unchanged (the stable
re-sort of sorted input is a no-op). -/
theorem sortByKeyDesc_sorted_eq {α β : Type} [LinearOrder β] (key : α → β) :
    ∀ l : List α,
    List.Pairwise (fun x y => key y ≤ key x) l →
    Reports.sortByKeyDesc key l = l := by
  intro l
  induction l with
  | nil => intro _; rfl
  | cons a t ih =>
      intro h
      rw [List.pairwise_cons] at h
      obtain ⟨ha, ht⟩ := h
      rw [Reports.sortByKeyDesc, ih ht]
      cases t with
      | nil => rfl
      | cons b t2 =>
          rw [Reports.insertByKeyDesc, if_pos (ha b (List.mem_cons_self _ _))]

/-! ## Claim C5 -/

/-- C5 counterexample: when the agent branch raises an exception whose
string representation is empty, the summary contains no `agent_error`
field (the `if agent_error:` truthiness test fails) and even reports
`agent_activity_available = True`, so the claim as stated fails for that
invocation. -/
theorem comprehensive_activity_empty_error_counterexample :
    ((Reports.get_comprehensive_user_activity [] ⟨0, "range", 0⟩ true
        (.ok true) (.error ⟨"", "ConnectionError"⟩)).2.1.agent_error
      = none) ∧
    ((Reports.get_comprehensive_user_activity [] ⟨0, "range", 0⟩ true
        (.ok true) (.error ⟨"", "ConnectionError"⟩)).2.1.agent_activity_available
      = some true) ∧
    ((Reports.get_comprehensive_user_activity [] ⟨0, "range", 0⟩ true
        (.ok true) (.error ⟨"", "ConnectionError"⟩)).2.2 = true) :=
  ⟨rfl, rfl, rfl⟩

/-- C5 amended: when the agent-activity branch raises an exception whose
message is non-empty, `get_comprehensive_user_activity` does not
propagate it: it returns the requester-side item list (unchanged, as the
requester pass produces it sorted), `is_agent = true`, and a summary
carrying `agent_error`, its kind, and `agent_activity_available =
False`. -/
theorem comprehensive_activity_partial_on_agent_error
    (requester_items : List Reports.Item)
    (requester_summary : Reports.RequesterSummary) (e : Reports.PyErr)
    (hsorted : List.Pairwise
      (fun x y => Reports.createdKey y ≤ Reports.createdKey x) requester_items)
    (hmsg : e.msg ≠ "") :
    (Reports.get_comprehensive_user_activity requester_items requester_summary
        true (.ok true) (.error e)).1 = requester_items ∧
    (Reports.get_comprehensive_user_activity requester_items requester_summary
        true (.ok true) (.error e)).2.2 = true ∧
    (Reports.get_comprehensive_user_activity requester_items requester_summary
        true (.ok true) (.error e)).2.1.is_agent = true ∧
    (Reports.get_comprehensive_user_activity requester_items requester_summary
        true (.ok true) (.error e)).2.1.agent_error = some e.msg ∧
    (Reports.get_comprehensive_user_activity requester_items requester_summary
        true (.ok true) (.error e)).2.1.agent_error_type = some e.kind ∧
    (Reports.get_comprehensive_user_activity requester_items requester_summary
        true (.ok true) (.error e)).2.1.agent_activity_available
      = some false := by
  have hmb : e.msg.isEmpty = false := by
    cases he : e.msg.isEmpty
    · rfl
    · exact absurd ((String.isEmpty_iff _).mp he) hmsg
  have hmerge : Reports.mergeItems requester_items
      ((requester_items.filter (fun i => i.itemType == "ticket")).map (·.ticket_id))
      ((requester_items.filter
        (fun i => i.itemType == "conversation" && i.has_conversation_id)).map
        (·.conversation_id)) [] = requester_items := rfl
  refine ⟨?_, rfl, rfl, ?_, ?_, ?_⟩
  · show Reports.sortByKeyDesc Reports.createdKey
      (Reports.mergeItems requester_items _ _ []) = requester_items
    rw [hmerge]
    exact sortByKeyDesc_sorted_eq Reports.createdKey requester_items hsorted
  · show (if (!e.msg.isEmpty) = true then some e.msg else none) = some e.msg
    rw [hmb]
    rfl
  · show (if (!e.msg.isEmpty) = true
        then some ((some e.kind).getD "Unknown") else none) = some e.kind
    rw [hmb]
    rfl
  · show (if (!e.msg.isEmpty) = true then some false
        else if true = true then some true else none) = some false
    rw [hmb]
    rfl

/-- Witness for `comprehensive_activity_partial_on_agent_error` at a
concrete input. -/
theorem comprehensive_activity_partial_on_agent_error_witness :
    (List.Pairwise
      (fun x y => Reports.createdKey y ≤ Reports.createdKey x)
      [(⟨"ticket", some (JVal.num 9), false, none,
         some "2024-04-02T00:00:00Z"⟩ : Reports.Item)] ∧
     ("boom" : String) ≠ "") ∧
    (Reports.get_comprehensive_user_activity
        [⟨"ticket", some (JVal.num 9), false, none, some "2024-04-02T00:00:00Z"⟩]
        ⟨1, "range", 0⟩ true (.ok true) (.error ⟨"boom", "KeyError"⟩)).1
      = [⟨"ticket", some (JVal.num 9), false, none, some "2024-04-02T00:00:00Z"⟩] ∧
    (Reports.get_comprehensive_user_activity
        [⟨"ticket", some (JVal.num 9), false, none, some "2024-04-02T00:00:00Z"⟩]
        ⟨1, "range", 0⟩ true (.ok true) (.error ⟨"boom", "KeyError"⟩)).2.1.agent_error
      = some "boom" := by
  refine ⟨⟨List.pairwise_singleton _ _, by decide⟩, ?_, ?_⟩
  · exact (comprehensive_activity_partial_on_agent_error
      [⟨"ticket", some (JVal.num 9), false, none, some "2024-04-02T00:00:00Z"⟩]
      ⟨1, "range", 0⟩ ⟨"boom", "KeyError"⟩
      (List.pairwise_singleton _ _) (by decide)).1
  · exact (comprehensive_activity_partial_on_agent_error
      [⟨"ticket", some (JVal.num 9), false, none, some "2024-04-02T00:00:00Z"⟩]
      ⟨1, "range", 0⟩ ⟨"boom", "KeyError"⟩
      (List.pairwise_singleton _ _) (by decide)).2.2.2.1

/-! ## Claim C6 -/

/-- C6: the last-activity resolution does not implement the claimed
four-step cascade.  First failing input: an agent-only id — the requester
lookup raises (404), and because that first call is not guarded by an
inner handler the exception reaches the outer handler and the function
returns `None` without ever consulting the agent record (which here has
`last_login_at`).  Second failing input: the requester record has only
`created_at`, the agent lookup raises, and the ticket query succeeds with
zero tickets — the `result` variable then holds the tickets payload, so
the final `created_at` fallback finds no user record and the function
returns `None` although step (d) of the claimed cascade would return the
requester's `created_at`. -/
theorem last_login_cascade_divergence :
    (Reports.get_user_last_login true (.error ())
      (.ok ⟨none,
            some ⟨some "2024-03-01T10:00:00Z", some "2024-03-02T10:00:00Z",
                  some "2020-01-01T00:00:00Z"⟩,
            none⟩)
      (.ok ⟨none, none, some [⟨some "2024-05-05T00:00:00Z"⟩]⟩) = none) ∧
    (Reports.get_user_last_login true
      (.ok ⟨some ⟨none, none, some "2020-01-01T00:00:00Z"⟩, none, none⟩)
      (.error ())
      (.ok ⟨none, none, some []⟩) = none) :=
  ⟨rfl, rfl⟩

/-! ## Claim C7 -/

/-- A numeric inactivity record produced by `processUser` carries the
floored day count of its user's resolved timestamp. -/
theorem processUser_num (now threshold_days : Int) (utype : String)
    (u : Reports.ScanUser) (r : Reports.InactiveRecord) (d : Int)
    (h : (Reports.processUser now threshold_days utype u).1 = some r)
    (hd : r.days_inactive = Reports.DaysInactive.num d) :
    ∃ s t, u.last_login = Reports.Parsed.time s t ∧
      d = Int.fdiv (now - t) 86400 := by
  rw [Reports.processUser] at h
  by_cases hskip : (match u.created_at with
      | Reports.Parsed.time _ t => decide (t > now - threshold_days * 86400)
      | _ => false) = true
  · rw [if_pos hskip] at h
    cases h
  · rw [if_neg hskip] at h
    cases hll : u.last_login with
    | absent =>
        rw [hll] at h
        have hr : r = ⟨u.id, u.email, none, Reports.DaysInactive.unknown,
            utype, u.active⟩ := (Option.some.inj h).symm
        rw [hr] at hd
        cases hd
    | malformed s =>
        rw [hll] at h
        cases h
    | time s t =>
        rw [hll] at h
        dsimp only at h
        by_cases hcmp : Int.fdiv (now - t) 86400 > threshold_days
        · rw [if_pos hcmp] at h
          have hr := (Option.some.inj h).symm
          rw [hr] at hd
          exact ⟨s, t, rfl, (Reports.DaysInactive.num.inj hd).symm⟩
        · rw [if_neg hcmp] at h
          cases h

/-- Every numeric record of a scan pass comes from a member of the
scanned population with a parsed timestamp. -/
theorem scanUsers_num_source (now threshold_days : Int) (utype : String) :
    ∀ (users : List Reports.ScanUser) (r : Reports.InactiveRecord) (d : Int),
      r ∈ (Reports.scanUsers now threshold_days utype users).1 →
      r.days_inactive = Reports.DaysInactive.num d →
      ∃ u ∈ users, ∃ s t, u.last_login = Reports.Parsed.time s t ∧
        d = Int.fdiv (now - t) 86400 := by
  intro users
  induction users with
  | nil => intro r d hr; cases hr
  | cons u rest ih =>
      intro r d hr hd
      rw [Reports.scanUsers] at hr
      cases hpu : (Reports.processUser now threshold_days utype u).1 with
      | some rec =>
          rw [hpu] at hr
          rcases List.mem_cons.mp hr with heq | hmem
          · obtain ⟨s, t, hll, hdd⟩ :=
              processUser_num now threshold_days utype u rec d hpu (heq ▸ hd)
            exact ⟨u, List.mem_cons_self _ _, s, t, hll, hdd⟩
          · obtain ⟨w, hw, hrest⟩ := ih r d hmem hd
            exact ⟨w, List.mem_cons_of_mem _ hw, hrest⟩
      | none =>
          rw [hpu] at hr
          obtain ⟨w, hw, hrest⟩ := ih r d hr hd
          exact ⟨w, List.mem_cons_of_mem _ hw, hrest⟩

/-- C7: in the inactivity scan, a user created after the threshold cutoff
is skipped outright (no record, no tally) regardless of activity data; a
user past the cutoff check with no resolvable activity signal is always
recorded with `days_inactive = "Unknown"` and tallied under the
no-login-data count; and in the sorted result every `"Unknown"` record
precedes every numeric record, given that each resolvable day count stays
below the `999999` sentinel (which holds for every timestamp the source's
bounded `datetime` parsing can produce under a current-era clock). -/
theorem inactivity_scan_classification (now threshold_days : Int)
    (agents requesters : List Reports.ScanUser) (ia ir : Bool) :
    (∀ (utype : String) (u : Reports.ScanUser) (s : String) (t : Int),
      u.created_at = Reports.Parsed.time s t →
      now - threshold_days * 86400 < t →
      Reports.processUser now threshold_days utype u = (none, false)) ∧
    (∀ (utype : String) (u : Reports.ScanUser),
      (∀ s t, u.created_at = Reports.Parsed.time s t →
        ¬ (now - threshold_days * 86400 < t)) →
      u.last_login = Reports.Parsed.absent →
      Reports.processUser now threshold_days utype u
        = (some ⟨u.id, u.email, none, Reports.DaysInactive.unknown,
                 utype, u.active⟩, true)) ∧
    ((∀ u, (u ∈ agents ∨ u ∈ requesters) → ∀ s t,
        u.last_login = Reports.Parsed.time s t →
        Int.fdiv (now - t) 86400 < 999999) →
      List.Pairwise
        (fun x y => (∃ d, x.days_inactive = Reports.DaysInactive.num d) →
          ∃ d, y.days_inactive = Reports.DaysInactive.num d)
        (Reports.get_inactive_users_report now threshold_days agents
          requesters ia ir).1) := by
  refine ⟨?_, ?_, ?_⟩
  · intro utype u s t hca hrec
    rw [Reports.processUser]
    rw [if_pos (by rw [hca]; simpa using hrec)]
  · intro utype u hnrec hll
    rw [Reports.processUser]
    rw [if_neg ?hskip]
    · rw [hll]
    case hskip =>
      cases hca : u.created_at with
      | absent => simp
      | malformed s => simp
      | time s t =>
          simp only [decide_eq_true_eq]
          exact hnrec s t hca
  · intro hbound
    have hpw := pairwise_sortByKeyDesc Reports.scanSortKey
      ((if ia then Reports.scanUsers now threshold_days "Agent" agents
        else ([], 0)).1 ++
       (if ir then Reports.scanUsers now threshold_days "Requester" requesters
        else ([], 0)).1)
    have hnum : ∀ x ∈ ((if ia then Reports.scanUsers now threshold_days "Agent" agents
        else ([], 0)).1 ++
       (if ir then Reports.scanUsers now threshold_days "Requester" requesters
        else ([], 0)).1), ∀ d, x.days_inactive = Reports.DaysInactive.num d →
        d < 999999 := by
      intro x hx d hd
      rcases List.mem_append.mp hx with hxa | hxr
      · cases hia : ia with
        | false => rw [hia] at hxa; cases hxa
        | true =>
            rw [hia] at hxa
            simp only [if_true] at hxa
            obtain ⟨u, hu, s, t, hll, hdd⟩ :=
              scanUsers_num_source now threshold_days "Agent" agents x d hxa hd
            rw [hdd]
            exact hbound u (Or.inl hu) s t hll
      · cases hir : ir with
        | false => rw [hir] at hxr; cases hxr
        | true =>
            rw [hir] at hxr
            simp only [if_true] at hxr
            obtain ⟨u, hu, s, t, hll, hdd⟩ :=
              scanUsers_num_source now threshold_days "Requester" requesters x d hxr hd
            rw [hdd]
            exact hbound u (Or.inr hu) s t hll
    show List.Pairwise _ (Reports.sortByKeyDesc Reports.scanSortKey _)
    apply List.Pairwise.imp_of_mem ?_ hpw
    intro a b ha hb hkey hnuma
    obtain ⟨d, hda⟩ := hnuma
    cases hdb : b.days_inactive with
    | num d2 => exact ⟨d2, rfl⟩
    | unknown =>
        exfalso
        have hka : Reports.scanSortKey a = d := by
          rw [Reports.scanSortKey, hda]
        have hkb : Reports.scanSortKey b = 999999 := by
          rw [Reports.scanSortKey, hdb]
        have hamem := (mem_sortByKeyDesc Reports.scanSortKey a _).mp ha
        have hdlt := hnum a hamem d hda
        rw [hka, hkb] at hkey
        omega

/-- Witness for `inactivity_scan_classification` at concrete inputs. -/
theorem inactivity_scan_classification_witness :
    (Reports.processUser 1000000 90 "Agent"
        ⟨5, none, Reports.Parsed.time "c" 999999, Reports.Parsed.absent, true⟩
      = (none, false)) ∧
    (Reports.processUser 1000000 90 "Agent"
        ⟨6, none, Reports.Parsed.absent, Reports.Parsed.absent, true⟩
      = (some ⟨6, none, none, Reports.DaysInactive.unknown, "Agent", true⟩,
         true)) ∧
    List.Pairwise
      (fun x y => (∃ d, x.days_inactive = Reports.DaysInactive.num d) →
        ∃ d, y.days_inactive = Reports.DaysInactive.num d)
      (Reports.get_inactive_users_report 1000000 90
        [⟨6, none, Reports.Parsed.absent, Reports.Parsed.absent, true⟩]
        [] true true).1 := by
  have h := inactivity_scan_classification 1000000 90
    [⟨6, none, Reports.Parsed.absent, Reports.Parsed.absent, true⟩] [] true true
  refine ⟨?_, ?_, ?_⟩
  · exact h.1 "Agent" ⟨5, none, Reports.Parsed.time "c" 999999,
      Reports.Parsed.absent, true⟩ "c" 999999 rfl (by omega)
  · exact h.2.1 "Agent" ⟨6, none, Reports.Parsed.absent,
      Reports.Parsed.absent, true⟩ (by intro s t hca; cases hca) rfl
  · refine h.2.2 ?_
    intro u hu s t hll
    rcases hu with hu | hu
    · rcases List.mem_singleton.mp hu with rfl
      cases hll
    · cases hu
